import Mathlib

/-!
Verification of the httpExporter span-export pipeline (Go).

The Go sources embedded here are `convert.go`, `exporter.go` and the
environment helper file.  Pure functions become Lean functions; the
exporter's mutable stop flag becomes explicit state passing; the HTTP
transport becomes an oracle parameter recording whether a request was
issued and what status (or failure) the transport produced; `encoding/json`
marshalling of the `SpanData` struct is embedded as a function to a JSON
value tree that follows the struct's json tags (field order, `omitempty`).
-/

namespace HttpExporter

/-! ## Attribute values

The exporter converts typed OpenTelemetry attribute values to generic
values via `Value.AsInterface` (called in `attributesToMap`, convert.go).
The `attribute.Value` representation lives in the upstream
`go.opentelemetry.io/otel/attribute` package (not under src/): it is
embedded here following that package's documented representation, which the
spec's AttributeMapper contract describes.  A `Value` stores scalars in a
`numeric : uint64` field (booleans as 0/1, int64 by two's complement
reinterpretation, float64 by its IEEE-754 bit pattern), strings in a
`stringly` field, and homogeneous slices in a `slice` field. -/

/-- A 64-bit float is carried by its IEEE-754 bit pattern: the Go code never
performs float arithmetic, it only moves the value, so the bit pattern is a
lossless representation (`math.Float64bits` / `math.Float64frombits` are
mutually inverse). -/
abbrev Float64Bits := Nat

/-- The typed attribute values of the supported kinds: the payload of an
`attribute.KeyValue` before type erasure, and equally the dynamic content of
the `interface\x7b\x7d` that `Value.AsInterface` returns. -/
inductive GenValue where
  | ofBool (b : Bool)
  | ofInt64 (i : Int)
  | ofFloat64 (bits : Float64Bits)
  | ofString (s : String)
  | ofBoolSlice (xs : List Bool)
  | ofInt64Slice (xs : List Int)
  | ofFloat64Slice (xs : List Float64Bits)
  | ofStringSlice (xs : List String)
  deriving DecidableEq, Repr

/-- Source `attribute.Type`: the tag stored in a `Value`. -/
inductive VType where
  | BOOL
  | INT64
  | FLOAT64
  | STRING
  | BOOLSLICE
  | INT64SLICE
  | FLOAT64SLICE
  | STRINGSLICE
  deriving DecidableEq, Repr

/-- Content of the `slice` field of a `Value`. -/
inductive SliceData where
  | noSlice
  | bools (xs : List Bool)
  | int64s (xs : List Int)
  | float64s (xs : List Float64Bits)
  | strings (xs : List String)
  deriving DecidableEq, Repr

/-- Source `attribute.Value`: tagged union with a `uint64` numeric field, a string
field and a slice field. -/
structure Value where
  vtype : VType
  numeric : Nat
  stringly : String
  slice : SliceData
  deriving DecidableEq, Repr

/-- Source `internal.BoolToRaw`: `if b \x7b return 1 \x7d; return 0`. -/
def boolToRaw (b : Bool) : Nat := if b then 1 else 0

/-- Source `internal.RawToBool`: `return r != 0`. -/
def rawToBool (r : Nat) : Bool := decide (r ≠ 0)

/-- Source `internal.Int64ToRaw`: `return uint64(i)` — two's complement
reinterpretation, i.e. the representative of `i` modulo 2^64 in
`[0, 2^64)`. -/
def int64ToRaw (i : Int) : Nat := (i % (2 ^ 64)).toNat

/-- Source `internal.RawToInt64`: `return int64(r)` — values at or above 2^63 are
read back as negative. -/
def rawToInt64 (r : Nat) : Int :=
  if r < 2 ^ 63 then (r : Int) else (r : Int) - 2 ^ 64

/-- Construction of an `attribute.Value` from a typed value
(`attribute.BoolValue`, `Int64Value`, `Float64Value`, `StringValue` and the
slice constructors). -/
def toValue : GenValue → Value
  | .ofBool b => ⟨.BOOL, boolToRaw b, "", .noSlice⟩
  | .ofInt64 i => ⟨.INT64, int64ToRaw i, "", .noSlice⟩
  | .ofFloat64 bits => ⟨.FLOAT64, bits, "", .noSlice⟩
  | .ofString s => ⟨.STRING, 0, s, .noSlice⟩
  | .ofBoolSlice xs => ⟨.BOOLSLICE, 0, "", .bools xs⟩
  | .ofInt64Slice xs => ⟨.INT64SLICE, 0, "", .int64s xs⟩
  | .ofFloat64Slice xs => ⟨.FLOAT64SLICE, 0, "", .float64s xs⟩
  | .ofStringSlice xs => ⟨.STRINGSLICE, 0, "", .strings xs⟩

/-- Source `Value.AsInterface`: type-switch on the stored tag, decoding the raw
representation back to the typed value (slice accessors return the slice
content, or nil — here the empty list — when the slice field does not hold
the expected kind). -/
def asInterface (v : Value) : GenValue :=
  match v.vtype with
  | .BOOL => .ofBool (rawToBool v.numeric)
  | .INT64 => .ofInt64 (rawToInt64 v.numeric)
  | .FLOAT64 => .ofFloat64 v.numeric
  | .STRING => .ofString v.stringly
  | .BOOLSLICE => .ofBoolSlice (match v.slice with | .bools xs => xs | _ => [])
  | .INT64SLICE => .ofInt64Slice (match v.slice with | .int64s xs => xs | _ => [])
  | .FLOAT64SLICE => .ofFloat64Slice (match v.slice with | .float64s xs => xs | _ => [])
  | .STRINGSLICE => .ofStringSlice (match v.slice with | .strings xs => xs | _ => [])

/-- Side condition for the int64 round trip: every integer the Go program
can hold in an `int64` lies in `[-2^63, 2^63)`. -/
def int64InRange (g : GenValue) : Prop :=
  match g with
  | .ofInt64 i => -(2 ^ 63) ≤ i ∧ i < 2 ^ 63
  | .ofInt64Slice xs => ∀ i ∈ xs, -(2 ^ 63) ≤ i ∧ i < 2 ^ 63
  | _ => True

instance (g : GenValue) : Decidable (int64InRange g) := by
  unfold int64InRange
  cases g <;> infer_instance

/-! ## Attribute maps

`attributesToMap` (convert.go) writes each key/value pair into a Go map in
input order; a later pair with the same key overwrites the earlier entry.
The Go map is embedded as an association list without duplicate keys, with
assignment updating in place. -/

/-- Source `attribute.KeyValue`. -/
structure KeyValue where
  key : String
  value : Value
  deriving DecidableEq, Repr

/-- The generic attribute map `map[attribute.Key]interface\x7b\x7d`,
embedded as an association list with pairwise-distinct keys. -/
abbrev AttrMap := List (String × GenValue)

/-- Go map assignment `m[k] = v`: replace the entry for `k` in place if one
exists, otherwise add the binding. -/
def mapInsert (m : AttrMap) (k : String) (v : GenValue) : AttrMap :=
  match m with
  | [] => [(k, v)]
  | (k₁, v₁) :: rest =>
      if k₁ = k then (k, v) :: rest else (k₁, v₁) :: mapInsert rest k v

/-- Go map read `m[k]`. -/
def mapFind : AttrMap → String → Option GenValue
  | [], _ => none
  | (k₁, v₁) :: rest, k => if k₁ = k then some v₁ else mapFind rest k

/-- Source `attributesToMap` (convert.go): fold the key/value pairs into a fresh
map, storing `v.Value.AsInterface()` under `v.Key`. -/
def attributesToMap (attributes : List KeyValue) : AttrMap :=
  attributes.foldl (fun attrs v => mapInsert attrs v.key (asInterface v.value)) []

/-! ## Span data model (convert.go)

A `ReadOnlySpan` exposes to the converter exactly the accessors
`convertSpansToHttp` calls; the identifier accessors end in `.String()`
in the Go code, so the snapshot carries the hex-string forms directly. -/

/-- Source `codes.Code` of the span status (`Unset`, `Error`, `Ok`). -/
inductive Code where
  | unset
  | errCode
  | ok
  deriving DecidableEq, Repr

/-- Source `codes.Code.String()`. -/
def Code.string : Code → String
  | .unset => "Unset"
  | .errCode => "Error"
  | .ok => "Ok"

/-- Source `trace.SpanKind`. -/
inductive SpanKind where
  | unspecified
  | internalKind
  | server
  | client
  | producer
  | consumer
  deriving DecidableEq, Repr

/-- The integer value of a `trace.SpanKind` (`type SpanKind int`), which is
what `encoding/json` emits for the `spanKind` field, since `trace.SpanKind`
implements no `MarshalJSON`. -/
def SpanKind.code : SpanKind → Nat
  | .unspecified => 0
  | .internalKind => 1
  | .server => 2
  | .client => 3
  | .producer => 4
  | .consumer => 5

/-- An `sdktrace.Event` as read by `eventsToSlice`. -/
structure EventIn where
  ts : Int
  name : String
  attrs : List KeyValue
  deriving DecidableEq, Repr

/-- An `sdktrace.Link` as read by `linksToSlice`. -/
structure LinkIn where
  traceID : String
  spanID : String
  attrs : List KeyValue
  deriving DecidableEq, Repr

/-- An `sdktrace.ReadOnlySpan` snapshot, restricted to the accessors the
converter reads. -/
structure ReadOnlySpan where
  traceID : String
  spanID : String
  parentSpanID : String
  spanKind : SpanKind
  name : String
  statusDescription : String
  statusCode : Code
  startTime : Int
  endTime : Int
  instrumentationLibraryName : String
  instrumentationLibraryVersion : String
  resourceAttributes : List KeyValue
  events : List EventIn
  attributes : List KeyValue
  links : List LinkIn
  deriving DecidableEq, Repr

/-- Source `Event` (convert.go): wire-format event. -/
structure Event where
  Ts : Int
  Name : String
  Attrs : AttrMap
  deriving DecidableEq, Repr

/-- Source `Link` (convert.go): wire-format link. -/
structure Link where
  TraceID : String
  SpanID : String
  Attrs : AttrMap
  deriving DecidableEq, Repr

/-- Source `SpanData` (convert.go): the wire-format span record.  `StatusCode` is a
string (the converter stores `Code.String()`); `SpanKind` keeps the enum
(the converter stores the raw `trace.SpanKind`). -/
structure SpanData where
  TraceID : String
  SpanID : String
  ParentSpanID : String
  Name : String
  StartTime : Int
  EndTime : Int
  Attrs : AttrMap
  DroppedAttributeCount : Nat
  Links : List Link
  DroppedLinkCount : Nat
  StatusCode : String
  MessageEvents : List Event
  DroppedMessageEventCount : Nat
  SpanKind : SpanKind
  StatusMessage : String
  InstrumentationLibraryName : String
  InstrumentationLibraryVersion : String
  Resource : AttrMap
  deriving DecidableEq, Repr

/-- Source `linksToSlice` (convert.go): convert each link in order. -/
def linksToSlice (links : List LinkIn) : List Link :=
  links.map fun v => { TraceID := v.traceID, SpanID := v.spanID, Attrs := attributesToMap v.attrs }

/-- Source `eventsToSlice` (convert.go): convert each event in order. -/
def eventsToSlice (events : List EventIn) : List Event :=
  events.map fun v => { Ts := v.ts, Name := v.name, Attrs := attributesToMap v.attrs }

/-- The loop body of `convertSpansToHttp`: build one `SpanData` from one
snapshot.  The three dropped counts are never assigned by the loop, so they
keep the zero value of `SpanData\x7b\x7d`. -/
def convertSpan (span : ReadOnlySpan) : SpanData :=
  { TraceID := span.traceID
    SpanID := span.spanID
    ParentSpanID := span.parentSpanID
    SpanKind := span.spanKind
    Name := span.name
    StatusMessage := span.statusDescription
    StatusCode := span.statusCode.string
    StartTime := span.startTime
    EndTime := span.endTime
    InstrumentationLibraryName := span.instrumentationLibraryName
    InstrumentationLibraryVersion := span.instrumentationLibraryVersion
    Resource := attributesToMap span.resourceAttributes
    MessageEvents := eventsToSlice span.events
    Attrs := attributesToMap span.attributes
    Links := linksToSlice span.links
    DroppedAttributeCount := 0
    DroppedLinkCount := 0
    DroppedMessageEventCount := 0 }

/-- Source `convertSpansToHttp` (convert.go): start from an empty slice and append
the conversion of each span in order. -/
def convertSpansToHttp : List ReadOnlySpan → List SpanData
  | [] => []
  | span :: rest => convertSpan span :: convertSpansToHttp rest

/-! ## JSON marshalling

`json.Marshal(&httpSpans)` is embedded as a function to a JSON value tree.
Struct fields appear in declaration order under their json tag names; a
field tagged `omitempty` is dropped when its value is an empty slice or
empty map; map keys are emitted in sorted order (encoding/json sorts map
keys).  Non-finite floats, the only marshal failure mode reachable from
`SpanData`, are represented by their bit patterns and marshalled
symbolically, so the embedding is total. -/

/-- JSON values.  A float64 field carries its bit pattern (`fnum`): no claim
inspects the decimal rendering of floats. -/
inductive Json where
  | str (s : String)
  | num (n : Int)
  | fnum (bits : Float64Bits)
  | bool (b : Bool)
  | arr (xs : List Json)
  | obj (fields : List (String × Json))
  deriving Repr

/-- Marshalling of one generic attribute value (the dynamic content of the
`interface\x7b\x7d` stored in the map). -/
def genValueJson : GenValue → Json
  | .ofBool b => .bool b
  | .ofInt64 i => .num i
  | .ofFloat64 bits => .fnum bits
  | .ofString s => .str s
  | .ofBoolSlice xs => .arr (xs.map Json.bool)
  | .ofInt64Slice xs => .arr (xs.map Json.num)
  | .ofFloat64Slice xs => .arr (xs.map Json.fnum)
  | .ofStringSlice xs => .arr (xs.map Json.str)

/-- Marshalling of a generic attribute map: entries sorted by key
(encoding/json emits map keys in sorted order). -/
def attrMapJson (m : AttrMap) : Json :=
  .obj (((m.mergeSort fun a b => a.1 ≤ b.1).map fun p => (p.1, genValueJson p.2)))

/-- Marshalling of one wire-format link. -/
def linkJson (l : Link) : Json :=
  .obj [("traceId", .str l.TraceID), ("spanId", .str l.SpanID), ("attrs", attrMapJson l.Attrs)]

/-- Marshalling of one wire-format event. -/
def eventJson (e : Event) : Json :=
  .obj [("ts", .num e.Ts), ("name", .str e.Name), ("attrs", attrMapJson e.Attrs)]

/-- Marshalling of one `SpanData` record, following the struct's json tags:
`links`, `messageEvents` and `resource` are tagged `omitempty` and are
dropped when empty; every other field is emitted unconditionally.
`SpanKind` is an integer type without `MarshalJSON`, so it is emitted as a
number. -/
def spanDataJson (s : SpanData) : Json :=
  .obj (
    [("traceId", .str s.TraceID),
     ("spanId", .str s.SpanID),
     ("parentSpanId", .str s.ParentSpanID),
     ("name", .str s.Name),
     ("startTime", .num s.StartTime),
     ("endTime", .num s.EndTime),
     ("attrs", attrMapJson s.Attrs),
     ("droppedAttributesCount", .num s.DroppedAttributeCount)]
    ++ (if s.Links = [] then [] else [("links", Json.arr (s.Links.map linkJson))])
    ++ [("droppedLinkCount", .num s.DroppedLinkCount),
        ("statusCode", .str s.StatusCode)]
    ++ (if s.MessageEvents = [] then []
        else [("messageEvents", Json.arr (s.MessageEvents.map eventJson))])
    ++ [("droppedMessageEventCount", .num s.DroppedMessageEventCount),
        ("spanKind", .num s.SpanKind.code),
        ("statusMessage", .str s.StatusMessage),
        ("instrumentationLibraryName", .str s.InstrumentationLibraryName),
        ("instrumentationLibraryVersion", .str s.InstrumentationLibraryVersion)]
    ++ (if s.Resource = [] then [] else [("resource", attrMapJson s.Resource)]))

/-- Field lookup in a marshalled JSON object. -/
def Json.getField : Json → String → Option Json
  | .obj fields, name => mapFindJson fields name
  | _, _ => none
where
  mapFindJson : List (String × Json) → String → Option Json
    | [], _ => none
    | (k, v) :: rest, name => if k = name then some v else mapFindJson rest name

/-- The field names present in a marshalled JSON object. -/
def Json.fieldNames : Json → List String
  | .obj fields => fields.map Prod.fst
  | _ => []

/-! ## Exporter (exporter.go and the environment helper file) -/

/-- Source `defaultURL` (exporter.go). -/
def defaultURL : String := "http://localhost:4000/"

/-- Source `envOr` (environment helper file): the env variable's value if it exists
and is non-empty, otherwise the default.  The ambient environment is passed
as an `Option String` (`none` when `os.LookupEnv` reports absence). -/
def envOr (envValue : Option String) (defaultValue : String) : String :=
  match envValue with
  | some v => if v ≠ "" then v else defaultValue
  | none => defaultValue

/-- The scheme and host components of a parsed URL (the only components
`New` inspects). -/
structure ParsedURL where
  scheme : String
  host : String
  deriving DecidableEq, Repr

/-- Scan for the first occurrence of `://`, returning the characters before
it and the characters after it. -/
def splitOnScheme (cs : List Char) (acc : List Char) : Option (List Char × List Char) :=
  match cs with
  | ':' :: '/' :: '/' :: rest => some (acc.reverse, rest)
  | c :: rest => splitOnScheme rest (c :: acc)
  | [] => none

/-- The authority component: the characters up to the first slash. -/
def takeUntilSlash : List Char → List Char
  | [] => []
  | '/' :: _ => []
  | c :: rest => c :: takeUntilSlash rest

/-- Embedding of Go `net/url.Parse` (standard library, not under src/),
restricted to the two components `New` reads: for an input of the form
`scheme://authority/rest` the scheme is the part before `://` and the host
is the authority up to the first slash; an input with no `://` parses with
empty scheme and empty host (Go places such an input in the path), as
`not-a-url` does.  Inputs on which Go's parser errors are out of scope of
the claims and are not represented. -/
def urlParse (s : String) : Option ParsedURL :=
  match splitOnScheme s.toList [] with
  | none => some ⟨"", ""⟩
  | some (schemeCs, rest) => some ⟨⟨schemeCs⟩, ⟨takeUntilSlash rest⟩⟩

/-- Source `Exporter` (exporter.go): the collector URL and the mutable stop flag
(the client and logger collaborators carry no state the claims depend on). -/
structure Exporter where
  url : String
  stopped : Bool
  deriving DecidableEq, Repr

/-- The URL-resolution prefix of `New`: an empty argument falls back to the
environment variable `OTEL_EXPORTER_HTTP_ENDPOINT` or the default. -/
def resolveURL (collectorURL : String) (envValue : Option String) : String :=
  if collectorURL = "" then envOr envValue defaultURL else collectorURL

/-- Source `New` (exporter.go): resolve the URL, parse it, reject a missing scheme
or host, and otherwise build the exporter with the stop flag clear. -/
def New (collectorURL : String) (envValue : Option String) : Except String Exporter :=
  match urlParse (resolveURL collectorURL envValue) with
  | none => .error s!"invalid collector URL {resolveURL collectorURL envValue}"
  | some u =>
      if u.scheme = "" ∨ u.host = "" then
        .error s!"invalid collector URL {resolveURL collectorURL envValue}: no scheme or host"
      else
        .ok { url := resolveURL collectorURL envValue, stopped := false }

/-- What the transport produces for the single POST of an export call:
a transport-level failure, or a response with the given HTTP status (whose
body is drained; a body-read failure is a further error path none of the
claims exercise). -/
inductive TransportResult where
  | failure
  | response (status : Nat)
  deriving DecidableEq, Repr

/-- Observable outcome of one `ExportSpans` call: the returned error (or
`none` for success), whether the batch was serialized, and whether an HTTP
request was issued. -/
structure ExportOutcome where
  err : Option String
  serialized : Bool
  requestSent : Bool
  deriving DecidableEq, Repr

/-- Source `ExportSpans` (exporter.go): read the stop flag and return nil if
stopped; return nil on an empty batch; otherwise convert and marshal the
batch, POST it, and classify the response.  The status check is transcribed
exactly as written in the source:
`resp.StatusCode < 200 && resp.StatusCode > 300`. -/
def ExportSpans (e : Exporter) (spans : List ReadOnlySpan) (tr : TransportResult) :
    ExportOutcome :=
  if e.stopped then
    { err := none, serialized := false, requestSent := false }
  else if spans.length = 0 then
    { err := none, serialized := false, requestSent := false }
  else
    let httpSpans := convertSpansToHttp spans
    let _body := Json.arr (httpSpans.map spanDataJson)
    match tr with
    | .failure =>
        { err := some s!"request to {e.url} failed", serialized := true, requestSent := true }
    | .response status =>
        if status < 200 ∧ status > 300 then
          { err := some s!"failed to send spans to server with status {status}",
            serialized := true, requestSent := true }
        else
          { err := none, serialized := true, requestSent := true }

/-- The error `ctx.Err()` returns for an already-cancelled context. -/
def ctxCanceledErr : String := "context canceled"

/-- Source `Shutdown` (exporter.go): set the stop flag (under the writer lock),
then return `ctx.Err()` if the caller's signal has already fired, else nil.
`ctxDone` is whether `<-ctx.Done()` is ready at call time. -/
def Shutdown (e : Exporter) (ctxDone : Bool) : Exporter × Option String :=
  let e₁ := { e with stopped := true }
  if ctxDone then (e₁, some ctxCanceledErr) else (e₁, none)

/-! ## Example inputs used by concrete theorems -/

/-- The span snapshot of the spec's serialization scenario: trace id
`4bf92f3577b34da6a3ce929d0e0e4736`, span id `00f067aa0ba902b7`, name
`GET /`, status Ok. -/
def c3Span : ReadOnlySpan :=
  { traceID := "4bf92f3577b34da6a3ce929d0e0e4736"
    spanID := "00f067aa0ba902b7"
    parentSpanID := "0000000000000000"
    spanKind := .server
    name := "GET /"
    statusDescription := ""
    statusCode := .ok
    startTime := 1000
    endTime := 2000
    instrumentationLibraryName := "lib"
    instrumentationLibraryVersion := "v1"
    resourceAttributes := []
    events := []
    attributes := []
    links := [] }

/-- A span snapshot whose resource has no attributes. -/
def c4Span : ReadOnlySpan :=
  { traceID := "4bf92f3577b34da6a3ce929d0e0e4736"
    spanID := "00f067aa0ba902b7"
    parentSpanID := "0000000000000000"
    spanKind := .client
    name := "GET /"
    statusDescription := ""
    statusCode := .unset
    startTime := 1000
    endTime := 2000
    instrumentationLibraryName := "lib"
    instrumentationLibraryVersion := "v1"
    resourceAttributes := []
    events := []
    attributes := []
    links := [] }

/-- A non-empty batch member for exercising the export path. -/
def c1Span : ReadOnlySpan :=
  { traceID := "4bf92f3577b34da6a3ce929d0e0e4736"
    spanID := "00f067aa0ba902b7"
    parentSpanID := "0000000000000000"
    spanKind := .internalKind
    name := "work"
    statusDescription := ""
    statusCode := .unset
    startTime := 1
    endTime := 2
    instrumentationLibraryName := ""
    instrumentationLibraryVersion := ""
    resourceAttributes := []
    events := []
    attributes := []
    links := [] }

/-! ## Theorems -/

/-- C1: the source's response classification
`resp.StatusCode < 200 && resp.StatusCode > 300` can never be true, so an
Export call that reaches classification returns success for every status —
for 301, 400 and 500 just as for 200 — contrary to the claimed
success-iff-2xx behavior (a defect the spec itself flags). -/
theorem c1_export_succeeds_on_error_status :
    (ExportSpans ⟨defaultURL, false⟩ [c1Span] (.response 400)).err = none ∧
    (ExportSpans ⟨defaultURL, false⟩ [c1Span] (.response 500)).err = none ∧
    (ExportSpans ⟨defaultURL, false⟩ [c1Span] (.response 301)).err = none ∧
    (ExportSpans ⟨defaultURL, false⟩ [c1Span] (.response 200)).err = none ∧
    (ExportSpans ⟨defaultURL, false⟩ [c1Span] (.response 400)).requestSent = true := by
  refine ⟨?_, ?_, ?_, ?_, ?_⟩ <;> simp [ExportSpans, c1Span]

/-- C2: after Shutdown (with either signal state), every subsequent Export
call — any batch, any transport behavior — returns success, performs no
serialization and sends no request. -/
theorem c2_export_after_shutdown (e : Exporter) (ctxDone : Bool)
    (spans : List ReadOnlySpan) (tr : TransportResult) :
    ExportSpans (Shutdown e ctxDone).1 spans tr =
      { err := none, serialized := false, requestSent := false } := by
  cases ctxDone <;> simp [Shutdown, ExportSpans]

/-- C5 counterexample: with the cancellation signal already fired, Shutdown
does return the cancellation error, but the lifecycle gate is not left
unchanged: the stop flag is set before the signal is consulted, so an
Active exporter ends up Stopped. -/
theorem c5_shutdown_sets_stopped_counterexample :
    (Shutdown ⟨defaultURL, false⟩ true).2 = some ctxCanceledErr ∧
    (Shutdown ⟨defaultURL, false⟩ true).1.stopped = true ∧
    (⟨defaultURL, false⟩ : Exporter).stopped = false := by
  refine ⟨rfl, rfl, rfl⟩

/-- C5 amended: Shutdown always transitions the gate to Stopped — also when
the cancellation signal has already fired — and returns the cancellation
error exactly when the signal had fired, success otherwise. -/
theorem c5_shutdown_behavior (e : Exporter) (ctxDone : Bool) :
    (Shutdown e ctxDone).1 = { e with stopped := true } ∧
    (Shutdown e ctxDone).2 = (if ctxDone then some ctxCanceledErr else none) := by
  cases ctxDone <;> simp [Shutdown]

/-- C9: with the gate still Active, an Export call with the empty batch
returns success, performs no serialization and issues no request. -/
theorem c9_export_empty_batch (e : Exporter) (tr : TransportResult)
    (h : e.stopped = false) :
    ExportSpans e [] tr = { err := none, serialized := false, requestSent := false } := by
  simp [ExportSpans, h]

/-- Witness for C9 at a concrete active exporter and transport. -/
theorem c9_export_empty_batch_witness :
    (⟨defaultURL, false⟩ : Exporter).stopped = false ∧
    ExportSpans ⟨defaultURL, false⟩ [] (.response 200) =
      { err := none, serialized := false, requestSent := false } :=
  ⟨rfl, c9_export_empty_batch ⟨defaultURL, false⟩ (.response 200) rfl⟩

/-- The converter is the elementwise map of `convertSpan`. -/
theorem convertSpansToHttp_eq_map (spans : List ReadOnlySpan) :
    convertSpansToHttp spans = spans.map convertSpan := by
  induction spans with
  | nil => rfl
  | cons s rest ih => simp [convertSpansToHttp, ih]

/-- C6: the span converter preserves length, derives the i-th output record
from the i-th input snapshot, and maps the empty batch to the empty
sequence. -/
theorem c6_converter_length_order (spans : List ReadOnlySpan) :
    (convertSpansToHttp spans).length = spans.length ∧
    (∀ i : Nat, (convertSpansToHttp spans)[i]? = spans[i]?.map convertSpan) ∧
    convertSpansToHttp ([] : List ReadOnlySpan) = [] := by
  refine ⟨?_, ?_, rfl⟩ <;> simp [convertSpansToHttp_eq_map]

/-- Round trip of the int64 raw encoding (`uint64(i)` then `int64(r)`) on
the int64 range. -/
theorem rawToInt64_int64ToRaw (i : Int) (h₁ : -(2 ^ 63) ≤ i) (h₂ : i < 2 ^ 63) :
    rawToInt64 (int64ToRaw i) = i := by
  unfold rawToInt64 int64ToRaw
  split <;> omega

/-- C7: converting a typed attribute value of any supported kind to an
`attribute.Value` and extracting it back with `AsInterface` returns the
original value exactly — elementwise and in order for the slice kinds —
provided every int64 involved lies in the machine int64 range. -/
theorem c7_attr_roundtrip (g : GenValue) (h : int64InRange g) :
    asInterface (toValue g) = g := by
  cases g with
  | ofBool b => cases b <;> rfl
  | ofInt64 i =>
      obtain ⟨h₁, h₂⟩ := h
      simp [toValue, asInterface, rawToInt64_int64ToRaw i h₁ h₂]
  | ofFloat64 bits => rfl
  | ofString s => rfl
  | ofBoolSlice xs => rfl
  | ofInt64Slice xs => rfl
  | ofFloat64Slice xs => rfl
  | ofStringSlice xs => rfl

/-- Witness for C7 at a concrete int64 slice with a negative element. -/
theorem c7_attr_roundtrip_witness :
    int64InRange (.ofInt64Slice [-3, 5]) ∧
    asInterface (toValue (.ofInt64Slice [-3, 5])) = .ofInt64Slice [-3, 5] :=
  ⟨by decide, c7_attr_roundtrip (.ofInt64Slice [-3, 5]) (by decide)⟩

/-- Go map assignment then read: reading key `j` after writing key `k` sees
the new value exactly when `j = k`. -/
theorem mapFind_mapInsert (m : AttrMap) (k j : String) (v : GenValue) :
    mapFind (mapInsert m k v) j = if k = j then some v else mapFind m j := by
  induction m with
  | nil => simp [mapInsert, mapFind]
  | cons p rest ih =>
      obtain ⟨k₁, v₁⟩ := p
      by_cases h₁ : k₁ = k
      · subst h₁
        by_cases h₂ : k₁ = j <;> simp [mapInsert, mapFind, h₂]
      · by_cases h₂ : k₁ = j
        · subst h₂
          have hkj : ¬ k = k₁ := fun hh => h₁ hh.symm
          simp [mapInsert, mapFind, h₁, hkj]
        · simp [mapInsert, mapFind, h₁, h₂, ih]

/-- Assignment adds exactly the written key to the key set. -/
theorem mem_keys_mapInsert (m : AttrMap) (k j : String) (v : GenValue) :
    j ∈ (mapInsert m k v).map Prod.fst ↔ j = k ∨ j ∈ m.map Prod.fst := by
  induction m with
  | nil => simp [mapInsert]
  | cons p rest ih =>
      obtain ⟨k₁, v₁⟩ := p
      by_cases h₁ : k₁ = k
      · subst h₁; simp [mapInsert]
      · simp [mapInsert, h₁, ih]; tauto

/-- Reading the map built by the `attributesToMap` loop from any initial map
returns the value of the last input pair with the sought key, falling back
to the initial map when the key never occurs. -/
theorem mapFind_foldl_insert (l : List KeyValue) (m : AttrMap) (k : String) :
    mapFind (l.foldl (fun attrs v => mapInsert attrs v.key (asInterface v.value)) m) k =
      match l.reverse.find? fun p => p.key == k with
      | some p => some (asInterface p.value)
      | none => mapFind m k := by
  induction l generalizing m with
  | nil => simp
  | cons a t ih =>
      rw [List.foldl_cons, ih, List.reverse_cons, List.find?_append]
      cases h : t.reverse.find? (fun p => p.key == k) with
      | some p => simp [Option.or]
      | none =>
          by_cases hk : a.key = k
          · have hb : (a.key == k) = true := beq_iff_eq.mpr hk
            simp [List.find?, hb, mapFind_mapInsert, hk]
          · have hb : (a.key == k) = false := beq_eq_false_iff_ne.mpr hk
            simp [List.find?, hb, mapFind_mapInsert, hk]

/-- The key set of the map built by the `attributesToMap` loop is the keys
of the initial map together with the input keys. -/
theorem mem_keys_foldl_insert (l : List KeyValue) (m : AttrMap) (j : String) :
    j ∈ (l.foldl (fun attrs v => mapInsert attrs v.key (asInterface v.value)) m).map Prod.fst ↔
      j ∈ m.map Prod.fst ∨ j ∈ l.map KeyValue.key := by
  induction l generalizing m with
  | nil => simp
  | cons a t ih =>
      rw [List.foldl_cons, ih, mem_keys_mapInsert]
      simp only [List.map_cons, List.mem_cons]
      tauto

/-- C10: the key set of `attributesToMap attributes` is exactly the set of
keys occurring in the input, and the value retained for a key is the
converted value of its last occurrence in input order (later pairs
overwrite earlier ones). -/
theorem c10_attributesToMap_last_wins (l : List KeyValue) (k : String) :
    (k ∈ (attributesToMap l).map Prod.fst ↔ k ∈ l.map KeyValue.key) ∧
    mapFind (attributesToMap l) k =
      (l.reverse.find? fun p => p.key == k).map fun p => asInterface p.value := by
  constructor
  · simpa using mem_keys_foldl_insert l [] k
  · rw [attributesToMap, mapFind_foldl_insert]
    cases h : l.reverse.find? (fun p => p.key == k) <;> simp [mapFind]

/-- C3 counterexample: for the spec's scenario span (status Ok, kind
server), the serialized record carries `traceId`, `spanId` and
`statusCode = "Ok"` as claimed, but `spanKind` is rendered as the number 2,
not as the string name: `trace.SpanKind` is an integer type with no JSON
marshaller. -/
theorem c3_spanKind_numeric_counterexample :
    (spanDataJson (convertSpan c3Span)).getField "spanKind" = some (Json.num 2) ∧
    (spanDataJson (convertSpan c3Span)).getField "spanKind" ≠ some (Json.str "server") ∧
    (spanDataJson (convertSpan c3Span)).getField "statusCode" = some (Json.str "Ok") ∧
    (spanDataJson (convertSpan c3Span)).getField "traceId" =
      some (Json.str "4bf92f3577b34da6a3ce929d0e0e4736") ∧
    (spanDataJson (convertSpan c3Span)).getField "spanId" =
      some (Json.str "00f067aa0ba902b7") := by
  refine ⟨rfl, ?_, rfl, rfl, rfl⟩
  intro h
  rw [show (spanDataJson (convertSpan c3Span)).getField "spanKind" = some (Json.num 2)
      from rfl] at h
  exact Option.noConfusion h fun h₂ => Json.noConfusion h₂

/-- C3 amended: in every serialized span record, `statusCode` is the string
name of the status enum value, while `spanKind` is the numeric code of the
kind enum value. -/
theorem c3_statusCode_string_spanKind_numeric (span : ReadOnlySpan) :
    (spanDataJson (convertSpan span)).getField "statusCode" =
      some (Json.str span.statusCode.string) ∧
    (spanDataJson (convertSpan span)).getField "spanKind" =
      some (Json.num span.spanKind.code) := by
  simp only [spanDataJson, convertSpan]
  split_ifs <;> simp [Json.getField, Json.getField.mapFindJson]

/-- A Go map assignment never leaves the map empty. -/
theorem mapInsert_ne_nil (m : AttrMap) (k : String) (v : GenValue) :
    mapInsert m k v ≠ [] := by
  cases m with
  | nil => simp [mapInsert]
  | cons p rest =>
      obtain ⟨k₁, v₁⟩ := p
      by_cases h : k₁ = k <;> simp [mapInsert, h]

/-- The `attributesToMap` loop never empties a non-empty accumulator. -/
theorem foldl_insert_ne_nil (l : List KeyValue) (m : AttrMap) (hm : m ≠ []) :
    l.foldl (fun attrs v => mapInsert attrs v.key (asInterface v.value)) m ≠ [] := by
  induction l generalizing m with
  | nil => simpa
  | cons a t ih =>
      rw [List.foldl_cons]
      exact ih _ (mapInsert_ne_nil _ _ _)

/-- The attribute map is empty exactly when the input pair list is empty. -/
theorem attributesToMap_eq_nil_iff (l : List KeyValue) :
    attributesToMap l = [] ↔ l = [] := by
  cases l with
  | nil => simp [attributesToMap]
  | cons a t =>
      have hne := foldl_insert_ne_nil t (mapInsert [] a.key (asInterface a.value))
        (mapInsert_ne_nil _ _ _)
      simp [attributesToMap, List.foldl_cons, hne]

/-- C4 counterexample: for a span whose resource carries no attributes, the
serialized record has no `resource` field at all (the struct tag is
`resource,omitempty`), while for example `droppedAttributesCount` is
present — so `resource` is not among the always-present fields. -/
theorem c4_resource_omitted_counterexample :
    "resource" ∉ (spanDataJson (convertSpan c4Span)).fieldNames ∧
    "droppedAttributesCount" ∈ (spanDataJson (convertSpan c4Span)).fieldNames ∧
    "links" ∉ (spanDataJson (convertSpan c4Span)).fieldNames ∧
    "messageEvents" ∉ (spanDataJson (convertSpan c4Span)).fieldNames := by
  refine ⟨?_, ?_, ?_, ?_⟩ <;> decide

/-- C4 amended: in every serialized span record, `links`, `messageEvents`
and `resource` are each omitted exactly when their sequence (for `resource`:
the resource attribute list) is empty, and the remaining fifteen named
fields are always present. -/
theorem c4_field_presence (span : ReadOnlySpan) :
    (("links" ∈ (spanDataJson (convertSpan span)).fieldNames) ↔ span.links ≠ []) ∧
    (("messageEvents" ∈ (spanDataJson (convertSpan span)).fieldNames) ↔ span.events ≠ []) ∧
    (("resource" ∈ (spanDataJson (convertSpan span)).fieldNames) ↔
      span.resourceAttributes ≠ []) ∧
    (∀ n ∈ (["traceId", "spanId", "parentSpanId", "name", "startTime", "endTime", "attrs",
        "droppedAttributesCount", "droppedLinkCount", "statusCode", "droppedMessageEventCount",
        "spanKind", "statusMessage", "instrumentationLibraryName",
        "instrumentationLibraryVersion"] : List String),
      n ∈ (spanDataJson (convertSpan span)).fieldNames) := by
  have hl : (linksToSlice span.links = []) ↔ span.links = [] := by simp [linksToSlice]
  have he : (eventsToSlice span.events = []) ↔ span.events = [] := by simp [eventsToSlice]
  have hr := attributesToMap_eq_nil_iff span.resourceAttributes
  simp only [spanDataJson, convertSpan]
  split_ifs with h₁ h₂ h₃ <;> simp_all [Json.fieldNames]

/-- C8: whenever the resolved collector URL parses, construction succeeds
exactly when the parsed URL has both a non-empty scheme and a non-empty
host; a missing scheme or missing host yields the configuration error. -/
theorem c8_new_validates_url (collectorURL : String) (envValue : Option String)
    (u : ParsedURL) (h : urlParse (resolveURL collectorURL envValue) = some u) :
    (New collectorURL envValue).isOk = true ↔ (u.scheme ≠ "" ∧ u.host ≠ "") := by
  unfold New
  rw [h]
  by_cases hs : u.scheme = "" <;> by_cases hh : u.host = "" <;>
    simp [hs, hh, Except.isOk, Except.toBool]

/-- Witness for C8: constructing with `not-a-url` (which resolves to a URL
with no scheme and no host) fails, and constructing with the default
`http://localhost:4000/` succeeds. -/
theorem c8_new_validates_url_witness :
    urlParse (resolveURL "not-a-url" none) = some ⟨"", ""⟩ ∧
    (New "not-a-url" none).isOk = false ∧ (New "http://localhost:4000/" none).isOk = true := by
  refine ⟨rfl, ?_, ?_⟩
  · have h := c8_new_validates_url "not-a-url" none ⟨"", ""⟩ rfl
    cases hb : (New "not-a-url" none).isOk
    · rfl
    · exact absurd (h.mp hb).1 (by simp)
  · exact (c8_new_validates_url "http://localhost:4000/" none
      ⟨"http", "localhost:4000"⟩ rfl).mpr (by simp)

end HttpExporter
